import Mathlib

/-!
Shallow embedding of the rpp-net citation-network crawler
(`src/fetch_network.py`) and feature extractor (`src/compute_features.py`).

The HTTP layer is abstracted by oracles: `getJson` consumes a script of
per-attempt responses mirroring the retry loop of `_get_json`; the crawler
`crawl` consumes an `api : String → FetchOut` oracle giving, per identifier,
the outcome the rate-limited client would produce for that work's URL.
The crawl loop in `_crawl` awaits each fetch before continuing, so its
observable semantics are sequential; it is modelled as a fuel-indexed loop
over an explicit state.  Machine floats are modelled as exact rationals; the
one square root (`np.std` inside `pbi_mean`) is kept symbolic as the variance
it is the root of.
-/

/-- Outcome of one HTTP attempt inside `_get_json`: a 429, a 404, a 200 with
a JSON body, or a network/timeout error (`aiohttp.ClientError`). -/
inductive FetchResp (α : Type) where
  | rateLimited : FetchResp α
  | notFound : FetchResp α
  | ok (body : α) : FetchResp α
  | netErr : FetchResp α
deriving DecidableEq, Repr

/-- Retry loop body of `_get_json` (`for attempt in range(retries)`), indexed
by the number of loop iterations still available.  `script i` is what attempt
number `i` receives.  Mirrors `src/fetch_network.py` lines 68-106: a 429
sleeps and continues; a 404 returns the `None` sentinel; a success returns the
body; a network error re-raises on the last attempt and otherwise sleeps and
continues.  When the `for` loop is exhausted the Python function falls off the
end and implicitly returns `None`.  The second component of the result is the
number of attempts made. -/
def getJsonGo (script : Nat → FetchResp α) (retries : Nat) :
    Nat → Except Unit (Option α) × Nat
  | 0 => (Except.ok none, retries)
  | r + 1 =>
    let attempt := retries - (r + 1)
    match script attempt with
    | FetchResp.rateLimited => getJsonGo script retries r
    | FetchResp.notFound => (Except.ok none, attempt + 1)
    | FetchResp.ok body => (Except.ok (some body), attempt + 1)
    | FetchResp.netErr =>
        if attempt = retries - 1 then (Except.error (), attempt + 1)
        else getJsonGo script retries r

/-- `_get_json(session, url, retries)`: run the retry loop from attempt 0.
`Except.error ()` models the exception propagating out (`raise`),
`Except.ok none` models returning the `None` sentinel, and
`Except.ok (some body)` a successful JSON body. -/
def getJson (script : Nat → FetchResp α) (retries : Nat) :
    Except Unit (Option α) × Nat :=
  getJsonGo script retries retries

/-- Author dict as stored by `_crawl` (`authorship['author']`): the fields the
code reads are `id` (guarded by an `in` check) and, downstream, the display
name; both are optional JSON fields. -/
structure Author where
  id : Option String
  displayName : Option String
deriving DecidableEq, Repr

/-- One entry of a work's `authorships` list; the `author` field is optional
(guarded by `'author' in authorship`). -/
structure Authorship where
  author : Option Author
deriving DecidableEq, Repr

/-- Work metadata as read by `_crawl`: `meta.get("publication_year", 0)`,
`meta.get("referenced_works", [])` and `meta.get('authorships')`.  Optional
JSON fields are `Option`/default-empty. -/
structure Meta where
  publicationYear : Option Int
  referencedWorks : List String
  authorships : List Authorship
deriving DecidableEq, Repr

/-- Result of one whole `_get_json` call as seen by `_crawl`: a JSON body, the
`None` (404) sentinel, or a raised exception. -/
inductive FetchOut where
  | ok (meta : Meta) : FetchOut
  | notFound : FetchOut
  | err : FetchOut
deriving DecidableEq, Repr

/-- `ref.split("/")[-1]`: the characters after the last `'/'` (all of them
when no slash occurs). -/
def lastSegmentAux : List Char → List Char → List Char
  | acc, [] => acc
  | acc, c :: cs =>
    if c = '/' then lastSegmentAux [] cs else lastSegmentAux (acc ++ [c]) cs

/-- `ref.split("/")[-1]` on strings. -/
def lastSegment (s : String) : String :=
  String.mk (lastSegmentAux [] s.data)

/-- Mutable state of the `while` loop in `_crawl`: the `nodes` dict (as an
association list in insertion order), the `edges` list, the FIFO `frontier`,
the `visited` set (as a list), the `authors` dict and the `author_edges`
list. -/
structure CrawlState where
  nodes : List (String × Meta)
  edges : List (String × String)
  frontier : List (String × Nat)
  visited : List String
  authors : List (String × Author)
  authorEdges : List (String × String)
deriving DecidableEq, Repr

/-- Initial crawl state: empty collections and the frontier `[(root, 0)]`. -/
def initState (rootDoi : String) : CrawlState :=
  { nodes := [], edges := [], frontier := [(rootDoi, 0)], visited := [],
    authors := [], authorEdges := [] }

/-- One iteration of the `authorships` loop of `_crawl` (lines 150-156): if
the authorship carries an author with an id, insert the author dict on first
sight and append an `(author_id, doi)` author edge. -/
def upsertAuthor (doi : String) (st : CrawlState) (ash : Authorship) :
    CrawlState :=
  match ash.author with
  | none => st
  | some a =>
    match a.id with
    | none => st
    | some aid =>
      let st' :=
        if (List.lookup aid st.authors).isSome then st
        else { st with authors := st.authors ++ [(aid, a)] }
      { st' with authorEdges := st'.authorEdges ++ [(aid, doi)] }

/-- The whole `authorships` loop of `_crawl` for one recorded node. -/
def recordAuthors (doi : String) (st : CrawlState) (meta : Meta) : CrawlState :=
  meta.authorships.foldl (upsertAuthor doi) st

/-- Body of the `while` loop of `_crawl` (lines 124-156) for one dequeued
frontier item `(doi, depth)`; `rest` is the remaining frontier.  Skips
already-visited identifiers, marks visited, fetches (the oracle `api` stands
for `_get_json` on this identifier's URL; `FetchOut.err` is a raised
exception, which propagates), prunes 404s and works newer than `cutoff`,
records the node, and if `depth < maxDepth` records an edge and enqueues a
frontier item per referenced work (identifier = last URL segment); finally
processes authorships. -/
def crawlStep (api : String → FetchOut) (cutoff : Int) (maxDepth : Nat)
    (st : CrawlState) (doi : String) (depth : Nat)
    (rest : List (String × Nat)) : Except Unit CrawlState :=
  if doi ∈ st.visited then
    Except.ok { st with frontier := rest }
  else
    match api doi with
    | FetchOut.err => Except.error ()
    | FetchOut.notFound =>
        Except.ok { st with frontier := rest, visited := doi :: st.visited }
    | FetchOut.ok meta =>
      if cutoff < meta.publicationYear.getD 0 then
        Except.ok { st with frontier := rest, visited := doi :: st.visited }
      else
        let withNode : CrawlState :=
          { st with frontier := rest, visited := doi :: st.visited,
                    nodes := st.nodes ++ [(doi, meta)] }
        let expanded : CrawlState :=
          if depth < maxDepth then
            let refs := meta.referencedWorks.map lastSegment
            { withNode with
                edges := withNode.edges ++ refs.map (fun r => (doi, r)),
                frontier :=
                  withNode.frontier ++ refs.map (fun r => (r, depth + 1)) }
          else withNode
        Except.ok (recordAuthors doi expanded meta)

/-- Result of running the crawl loop: normal loop exit, a propagated fetch
exception, or fuel exhaustion (the loop did not finish within `fuel`
iterations — not a behaviour of the code, only of the embedding). -/
inductive CrawlRes where
  | done (st : CrawlState) : CrawlRes
  | raised : CrawlRes
  | fuelOut : CrawlRes
deriving DecidableEq, Repr

/-- The `while frontier and len(nodes) < max_nodes` loop of `_crawl`,
fuel-indexed. -/
def crawlLoop (api : String → FetchOut) (cutoff : Int)
    (maxDepth maxNodes : Nat) : Nat → CrawlState → CrawlRes
  | 0, _ => CrawlRes.fuelOut
  | fuel + 1, st =>
    match st.frontier with
    | [] => CrawlRes.done st
    | (doi, depth) :: rest =>
      if st.nodes.length < maxNodes then
        match crawlStep api cutoff maxDepth st doi depth rest with
        | Except.error _ => CrawlRes.raised
        | Except.ok st' => crawlLoop api cutoff maxDepth maxNodes fuel st'
      else CrawlRes.done st

/-- The network record returned by `_crawl`: `rootMeta = none` models the `{}`
sentinel used when the root identifier is absent from `nodes`. -/
structure Network where
  nodes : List (String × Meta)
  edges : List (String × String)
  authors : List (String × Author)
  authorEdges : List (String × String)
  rootMeta : Option Meta
deriving DecidableEq, Repr

/-- Packaging at the end of `_crawl` (lines 158-162). -/
def mkNetwork (rootDoi : String) (st : CrawlState) : Network :=
  { nodes := st.nodes, edges := st.edges, authors := st.authors,
    authorEdges := st.authorEdges,
    rootMeta := List.lookup rootDoi st.nodes }

/-- Overall result of a `_crawl` call. -/
inductive CrawlResult where
  | net (netw : Network) : CrawlResult
  | raised : CrawlResult
  | fuelOut : CrawlResult
deriving DecidableEq, Repr

/-- `_crawl(root_doi, cutoff, max_depth, max_nodes, n_conc)` (concurrency is
behaviourally irrelevant: each fetch is awaited inside the loop). -/
def crawl (api : String → FetchOut) (rootDoi : String) (cutoff : Int)
    (maxDepth maxNodes fuel : Nat) : CrawlResult :=
  match crawlLoop api cutoff maxDepth maxNodes fuel (initState rootDoi) with
  | CrawlRes.done st => CrawlResult.net (mkNetwork rootDoi st)
  | CrawlRes.raised => CrawlResult.raised
  | CrawlRes.fuelOut => CrawlResult.fuelOut

/-- `n_nodes` of `features_from_network` (`src/compute_features.py` lines
203-215): the node count of `nx.ego_graph(G, root_doi)` (default radius 1,
directed) where `G = nx.DiGraph(net["edges"])` together with the keys of
`net["nodes"]`; converting to an undirected view keeps the node count.  Its
node set is the root together with the distinct targets of edges whose source
is the root. -/
def nNodes (netw : Network) (root : String) : Nat :=
  (root :: netw.edges.filterMap
      (fun e => if e.1 = root then some e.2 else none)).dedup.length

/-- Author graph produced by `build_author_graph`, restricted to what the
claimed metrics read: per author the `citation_count` node attribute (absent
modelled as `none`), and the directed edge set.  `nx.DiGraph.add_edge`
collapses duplicates, so edge multiplicity is irrelevant; degree functions
deduplicate below. -/
structure AuthorGraph where
  nodes : List (String × Option ℚ)
  edges : List (String × String)
deriving DecidableEq, Repr

/-- `author_graph.out_degree(weight='weight')` for one node: no edge carries a
`weight` attribute, so each of the node's distinct out-edges counts 1. -/
def outDegree (g : AuthorGraph) (n : String) : Nat :=
  (g.edges.dedup.filter (fun e => e.1 == n)).length

/-- The list `[max(0, d) for n, d in author_graph.out_degree(weight='weight')]`
of `gini_coefficient`. -/
def weightedOutDegrees (g : AuthorGraph) : List ℚ :=
  g.nodes.map (fun p => max 0 ((outDegree g p.1 : ℚ)))

/-- `np.cumsum`. -/
def cumsum (xs : List ℚ) : List ℚ :=
  (xs.scanl (· + ·) 0).tail

/-- `np.trapezoid(y, x)` on the list of sample points `(x, y)`: the sum of
trapezoid areas between consecutive samples (0 for fewer than two points). -/
def trapz : List (ℚ × ℚ) → ℚ
  | [] => 0
  | [_] => 0
  | p :: q :: rest => (q.1 - p.1) * (p.2 + q.2) / 2 + trapz (q :: rest)

/-- `gini_coefficient(author_graph)` (`src/compute_features.py` lines
108-127): 0 when the total weighted out-degree is 0, otherwise the
Lorenz-curve area ratio `A / (A + B)` with `B = np.trapezoid(y, x)` over
`y = cumsum(sorted degrees)/total` and `x = (1..n)/n`, and `A = 0.5 - B`. -/
def giniCoefficient (g : AuthorGraph) : ℚ :=
  let ds := weightedOutDegrees g
  if ds.sum = 0 then 0
  else
    let sorted := ds.insertionSort (· ≤ ·)
    let cum := cumsum sorted
    let total := cum.getLastD 0
    let y := cum.map (· / total)
    let x := (List.range ds.length).map (fun i => ((i : ℚ) + 1) / ds.length)
    let B := trapz (x.zip y)
    let A := 1 / 2 - B
    A / (A + B)

/-- `G.nodes[v].get('citation_count')` for a node of the author graph. -/
def lookupScore (g : AuthorGraph) (v : String) : Option ℚ :=
  match List.lookup v g.nodes with
  | none => none
  | some sc => sc

/-- `np.mean`. -/
def listMean (xs : List ℚ) : ℚ := xs.sum / (xs.length : ℚ)

/-- Square of `np.std` (population standard deviation, `ddof = 0`);
`np.std xs = 0` exactly when `popVar xs = 0`. -/
def popVar (xs : List ℚ) : ℚ :=
  (xs.map (fun x => (x - listMean xs) ^ 2)).sum / (xs.length : ℚ)

/-- Result of `pbi_mean`: `null` is Python `None`, `zero` is `0.0`, and
`val diff v` is the returned number `diff / np.std(base_scores)`, recorded as
the exact pair of `diff` and the variance `v = popVar base_scores` (the
returned value is `diff / Real.sqrt v`, which is irrational in general). -/
inductive PbiResult where
  | null : PbiResult
  | zero : PbiResult
  | val (diff variance : ℚ) : PbiResult
deriving DecidableEq, Repr

/-- `base_scores` of `pbi_mean`: citation counts of all author nodes that have
one. -/
def baseScores (g : AuthorGraph) : List ℚ :=
  g.nodes.filterMap Prod.snd

/-- `pbi_mean(G)` (`src/compute_features.py` lines 179-201): `None` when fewer
than 2 base scores or their standard deviation is 0; else `0.0` when no edge
target carries a score; else `(mean cited − mean base) / std base`. -/
def pbiMean (g : AuthorGraph) : PbiResult :=
  let base := baseScores g
  if base.length < 2 ∨ popVar base = 0 then PbiResult.null
  else
    let citedNodes := (g.edges.map Prod.snd).dedup
    let citedScores := citedNodes.filterMap (lookupScore g)
    if citedScores.isEmpty then PbiResult.zero
    else PbiResult.val (listMean citedScores - listMean base) (popVar base)

/-! Invariants of the crawl state. -/

/-- Every recorded node was fetched successfully and lies within the temporal
cutoff. -/
def NodesOk (api : String → FetchOut) (cutoff : Int)
    (nodes : List (String × Meta)) : Prop :=
  ∀ p ∈ nodes, api p.1 = FetchOut.ok p.2 ∧ p.2.publicationYear.getD 0 ≤ cutoff

/-- The citing endpoint of every recorded edge is a node key. -/
def EdgesOk (nodes : List (String × Meta)) (edges : List (String × String)) :
    Prop :=
  ∀ e ∈ edges, ∃ m, (e.1, m) ∈ nodes

/-! Concrete instances used by the claims. -/

/-- Root metadata of the end-to-end scenario: year 2000, references
`10.1000/a` and `10.1000/b`. -/
def metaRoot : Meta :=
  { publicationYear := some 2000,
    referencedWorks := ["10.1000/a", "10.1000/b"], authorships := [] }

/-- Metadata of reference `a`: year 2005. -/
def metaA : Meta :=
  { publicationYear := some 2005, referencedWorks := [], authorships := [] }

/-- Metadata of reference `b`: year 2025 (beyond the 2010 cutoff). -/
def metaB : Meta :=
  { publicationYear := some 2025, referencedWorks := [], authorships := [] }

/-- API oracle of the end-to-end scenario.  The crawler enqueues the last URL
segment of each reference, so the fetched identifiers are `a` and `b`. -/
def apiC1 : String → FetchOut := fun d =>
  if d = "10.1000/x" then FetchOut.ok metaRoot
  else if d = "a" then FetchOut.ok metaA
  else if d = "b" then FetchOut.ok metaB
  else FetchOut.notFound

/-- Network the crawler produces on the end-to-end scenario with
`cutoff_year = 2010`, `max_depth = 1`. -/
def netC1 : Network :=
  { nodes := [("10.1000/x", metaRoot), ("a", metaA)],
    edges := [("10.1000/x", "a"), ("10.1000/x", "b")],
    authors := [], authorEdges := [], rootMeta := some metaRoot }

/-- Author graph in which every author has out-degree exactly 1 (a 3-cycle);
the uniform case of the Gini claim. -/
def authorCycle3 : AuthorGraph :=
  { nodes := [("A", none), ("B", none), ("C", none)],
    edges := [("A", "B"), ("B", "C"), ("C", "A")] }

/-- Author graph of the PBI scenario: citation counts 10, 20, 30, and only
the author with count 30 receives intra-network citations. -/
def pbiExample : AuthorGraph :=
  { nodes := [("A", some 10), ("B", some 20), ("C", some 30)],
    edges := [("A", "C"), ("B", "C")] }

/-- Metadata of a small two-paper crawl used as a concrete witness: the root
`r` (year 2000) references `s`. -/
def metaWr : Meta := ⟨some 2000, ["s"], []⟩

/-- Metadata of the referenced paper `s` (year 2005). -/
def metaWs : Meta := ⟨some 2005, [], []⟩

/-- Metadata of a paper `u` whose `publication_year` field is absent. -/
def metaWu : Meta := ⟨none, [], []⟩

/-- API oracle for the witness crawls. -/
def apiW : String → FetchOut := fun d =>
  if d = "r" then FetchOut.ok metaWr
  else if d = "s" then FetchOut.ok metaWs
  else if d = "u" then FetchOut.ok metaWu
  else FetchOut.notFound

/-- Network produced by crawling `r` against `apiW` with cutoff 2010 and
`max_depth = 1`. -/
def netW : Network :=
  { nodes := [("r", metaWr), ("s", metaWs)], edges := [("r", "s")],
    authors := [], authorEdges := [], rootMeta := some metaWr }

/-- State after processing `r` dequeued at depth 5 with `max_depth = 3`: the
node is recorded but nothing is expanded. -/
def stC7 : CrawlState := ⟨[("r", metaWr)], [], [], ["r"], [], []⟩

/-! Helper lemmas. -/

theorem upsertAuthor_core (doi : String) (st : CrawlState) (ash : Authorship) :
    (upsertAuthor doi st ash).nodes = st.nodes ∧
    (upsertAuthor doi st ash).edges = st.edges ∧
    (upsertAuthor doi st ash).frontier = st.frontier ∧
    (upsertAuthor doi st ash).visited = st.visited := by
  obtain ⟨oa⟩ := ash
  cases oa with
  | none => simp [upsertAuthor]
  | some a =>
    obtain ⟨oid, odn⟩ := a
    cases oid with
    | none => simp [upsertAuthor]
    | some aid =>
      by_cases h : (List.lookup aid st.authors).isSome <;>
        simp [upsertAuthor, h]

theorem recordAuthors_core (doi : String) (st : CrawlState) (meta : Meta) :
    (recordAuthors doi st meta).nodes = st.nodes ∧
    (recordAuthors doi st meta).edges = st.edges ∧
    (recordAuthors doi st meta).frontier = st.frontier ∧
    (recordAuthors doi st meta).visited = st.visited := by
  unfold recordAuthors
  induction meta.authorships generalizing st with
  | nil => simp
  | cons a as ih =>
    simp only [List.foldl_cons]
    obtain ⟨h1, h2, h3, h4⟩ := upsertAuthor_core doi st a
    obtain ⟨g1, g2, g3, g4⟩ := ih (upsertAuthor doi st a)
    exact ⟨g1.trans h1, g2.trans h2, g3.trans h3, g4.trans h4⟩

theorem recordAuthors_nodes (doi : String) (st : CrawlState) (meta : Meta) :
    (recordAuthors doi st meta).nodes = st.nodes :=
  (recordAuthors_core doi st meta).1

theorem recordAuthors_edges (doi : String) (st : CrawlState) (meta : Meta) :
    (recordAuthors doi st meta).edges = st.edges :=
  (recordAuthors_core doi st meta).2.1

theorem recordAuthors_frontier (doi : String) (st : CrawlState) (meta : Meta) :
    (recordAuthors doi st meta).frontier = st.frontier :=
  (recordAuthors_core doi st meta).2.2.1

theorem crawlStep_inv (api : String → FetchOut) (cutoff : Int) (maxD : Nat)
    (st : CrawlState) (doi : String) (depth : Nat)
    (rest : List (String × Nat)) (st' : CrawlState)
    (h : crawlStep api cutoff maxD st doi depth rest = Except.ok st')
    (hn : NodesOk api cutoff st.nodes) (he : EdgesOk st.nodes st.edges) :
    NodesOk api cutoff st'.nodes ∧ EdgesOk st'.nodes st'.edges := by
  unfold crawlStep at h
  by_cases hv : doi ∈ st.visited
  · simp only [hv, if_true, Except.ok.injEq] at h
    subst h
    exact ⟨hn, he⟩
  · simp only [hv, if_false] at h
    cases hapi : api doi with
    | err => rw [hapi] at h; cases h
    | notFound =>
      rw [hapi] at h
      simp only [Except.ok.injEq] at h
      subst h
      exact ⟨hn, he⟩
    | ok meta =>
      rw [hapi] at h
      by_cases hy : cutoff < meta.publicationYear.getD 0
      · simp only [hy, if_true, Except.ok.injEq] at h
        subst h
        exact ⟨hn, he⟩
      · simp only [hy, if_false, Except.ok.injEq] at h
        have hyle : meta.publicationYear.getD 0 ≤ cutoff := le_of_not_lt hy
        by_cases hd : depth < maxD
        · simp only [hd, if_true] at h
          obtain ⟨r1, r2, -, -⟩ := recordAuthors_core doi _ meta
          rw [h] at r1 r2
          simp only at r1 r2
          constructor
          · intro p hp
            rw [r1] at hp
            rcases List.mem_append.mp hp with hold | hnew
            · exact hn p hold
            · rcases List.mem_singleton.mp hnew with rfl
              exact ⟨hapi, hyle⟩
          · intro e heEdge
            rw [r2] at heEdge
            rcases List.mem_append.mp heEdge with hold | hnew
            · obtain ⟨m, hm⟩ := he e hold
              exact ⟨m, by rw [r1]; exact List.mem_append_left _ hm⟩
            · obtain ⟨r, -, rfl⟩ := List.mem_map.mp hnew
              exact ⟨meta, by
                rw [r1]
                exact List.mem_append_right _ (List.mem_singleton.mpr rfl)⟩
        · simp only [hd, if_false] at h
          obtain ⟨r1, r2, -, -⟩ := recordAuthors_core doi _ meta
          rw [h] at r1 r2
          simp only at r1 r2
          constructor
          · intro p hp
            rw [r1] at hp
            rcases List.mem_append.mp hp with hold | hnew
            · exact hn p hold
            · rcases List.mem_singleton.mp hnew with rfl
              exact ⟨hapi, hyle⟩
          · intro e heEdge
            rw [r2] at heEdge
            obtain ⟨m, hm⟩ := he e heEdge
            exact ⟨m, by rw [r1]; exact List.mem_append_left _ hm⟩

theorem crawlLoop_inv (api : String → FetchOut) (cutoff : Int)
    (maxD maxN : Nat) :
    ∀ (fuel : Nat) (st st' : CrawlState),
      crawlLoop api cutoff maxD maxN fuel st = CrawlRes.done st' →
      NodesOk api cutoff st.nodes → EdgesOk st.nodes st.edges →
      NodesOk api cutoff st'.nodes ∧ EdgesOk st'.nodes st'.edges := by
  intro fuel
  induction fuel with
  | zero => intro st st' h; cases h
  | succ n ih =>
    intro st st' h hn he
    rw [crawlLoop] at h
    cases hf : st.frontier with
    | nil =>
      rw [hf] at h
      cases h
      exact ⟨hn, he⟩
    | cons hd tl =>
      rw [hf] at h
      by_cases hlen : st.nodes.length < maxN
      · simp only [hlen, if_true] at h
        cases hstep : crawlStep api cutoff maxD st hd.1 hd.2 tl with
        | error e => rw [hstep] at h; cases h
        | ok st₁ =>
          rw [hstep] at h
          obtain ⟨hn₁, he₁⟩ :=
            crawlStep_inv api cutoff maxD st hd.1 hd.2 tl st₁ hstep hn he
          exact ih st₁ st' h hn₁ he₁
      · simp only [hlen, if_false] at h
        cases h
        exact ⟨hn, he⟩

theorem crawl_net_inv (api : String → FetchOut) (rootDoi : String)
    (cutoff : Int) (maxD maxN fuel : Nat) (netw : Network)
    (h : crawl api rootDoi cutoff maxD maxN fuel = CrawlResult.net netw) :
    NodesOk api cutoff netw.nodes ∧ EdgesOk netw.nodes netw.edges := by
  unfold crawl at h
  cases hloop : crawlLoop api cutoff maxD maxN fuel (initState rootDoi) with
  | done st =>
    rw [hloop] at h
    simp only [CrawlResult.net.injEq] at h
    obtain ⟨hn, he⟩ := crawlLoop_inv api cutoff maxD maxN fuel
      (initState rootDoi) st hloop
      (by intro p hp; cases hp) (by intro e heE; cases heE)
    subst h
    exact ⟨hn, he⟩
  | raised => rw [hloop] at h; cases h
  | fuelOut => rw [hloop] at h; cases h

theorem wod_cycle3 : weightedOutDegrees authorCycle3 = [1, 1, 1] := by
  have hA : outDegree authorCycle3 "A" = 1 := by decide
  have hB : outDegree authorCycle3 "B" = 1 := by decide
  have hC : outDegree authorCycle3 "C" = 1 := by decide
  have hn : authorCycle3.nodes = [("A", none), ("B", none), ("C", none)] := rfl
  simp [weightedOutDegrees, hn, hA, hB, hC]

theorem gini_cycle3 : giniCoefficient authorCycle3 = 1 / 9 := by
  have hr : List.range 3 = [0, 1, 2] := rfl
  simp only [giniCoefficient, wod_cycle3]
  norm_num [List.insertionSort, List.orderedInsert, cumsum, List.scanl,
    List.getLastD, hr, trapz]

theorem base_pbiExample : baseScores pbiExample = [10, 20, 30] := by
  simp [baseScores, pbiExample]

theorem popVar_pbiExample : popVar (baseScores pbiExample) = 200 / 3 := by
  rw [base_pbiExample]
  norm_num [popVar, listMean]

theorem pbi_example_val : pbiMean pbiExample = PbiResult.val 10 (200 / 3) := by
  have hcited : (pbiExample.edges.map Prod.snd).dedup = ["C"] := by decide
  have hlook : lookupScore pbiExample "C" = some 30 := by decide
  simp only [pbiMean, hcited, base_pbiExample, popVar_pbiExample]
  norm_num [listMean, hlook, popVar, List.filterMap_cons, List.filterMap_nil]

theorem sqrt_bound_pbi :
    |(10 : ℝ) / Real.sqrt (200 / 3) - 1.2247| < 1 / 1000 := by
  have h3 : (0 : ℝ) < 200 / 3 := by norm_num
  have hs0 : (0 : ℝ) < Real.sqrt (200 / 3) := Real.sqrt_pos.mpr h3
  have hs2 : Real.sqrt (200 / 3) ^ 2 = 200 / 3 := Real.sq_sqrt h3.le
  rw [abs_lt]
  constructor
  · have hlow : (1.2247 : ℝ) < 10 / Real.sqrt (200 / 3) := by
      rw [lt_div_iff₀ hs0]
      nlinarith [hs2, hs0]
    linarith
  · have hhigh : 10 / Real.sqrt (200 / 3) < (1.2257 : ℝ) := by
      rw [div_lt_iff₀ hs0]
      nlinarith [hs2, hs0]
    linarith

/-! Claim theorems. -/

/-- C1 (counterexample): on the end-to-end scenario (root `10.1000/x`
referencing `10.1000/a` of year 2005 and `10.1000/b` of year 2025,
`cutoff_year = 2010`, `max_depth = 1`) the crawl yields exactly the claimed
network, but feature extraction's `n_nodes` is not 2: the radius-1 ego graph
is built over the citation graph of the edge list, which contains the pruned
edge target `b`. -/
theorem nNodes_endToEnd_ne_two :
    crawl apiC1 "10.1000/x" 2010 1 1000 10 = CrawlResult.net netC1 ∧
    nNodes netC1 "10.1000/x" ≠ 2 := by
  exact ⟨by decide, by decide⟩

/-- C1 (amended): on the end-to-end scenario the recorded node keys are
`{10.1000/x, a}` and the edges are `(root → a)` and `(root → b)` as claimed,
but `n_nodes` equals 3, counting the pruned edge target `b` alongside the
root and `a`. -/
theorem nNodes_endToEnd_eq_three :
    crawl apiC1 "10.1000/x" 2010 1 1000 10 = CrawlResult.net netC1 ∧
    netC1.nodes.map Prod.fst = ["10.1000/x", "a"] ∧
    netC1.edges = [("10.1000/x", "a"), ("10.1000/x", "b")] ∧
    nNodes netC1 "10.1000/x" = 3 := by
  exact ⟨by decide, by decide, by decide, by decide⟩

/-- C2: a fetch whose three attempts all receive HTTP 429 does not raise
after exhausting the retry budget; `_get_json` falls off its `for` loop and
returns `None` — the very same sentinel value a 404 produces — so the caller
treats the rate-limited work as "not found".  This contradicts the documented
contract that the call fails after exhausting retries. -/
theorem getJson_all429_returns_notFound_sentinel :
    getJson (fun _ => (FetchResp.rateLimited : FetchResp Meta)) 3 =
      (Except.ok none, 3) ∧
    (getJson (fun _ => (FetchResp.rateLimited : FetchResp Meta)) 3).1 =
      (getJson (fun _ => (FetchResp.notFound : FetchResp Meta)) 3).1 :=
  ⟨rfl, rfl⟩

/-- C3: on an author graph where every author has out-degree exactly 1 (the
3-cycle), `gini_coefficient` returns 1/9, not the claimed 0: the Lorenz
trapezoid is integrated without the (0,0) origin sample, so a perfectly
uniform distribution gets Gini 1/n². -/
theorem giniCoefficient_uniform_cycle_ne_zero :
    giniCoefficient authorCycle3 = 1 / 9 ∧
    giniCoefficient authorCycle3 ≠ 0 := by
  have h : giniCoefficient authorCycle3 = 1 / 9 := gini_cycle3
  refine ⟨h, ?_⟩
  rw [h]
  norm_num

/-- C4: a fetch whose every attempt fails with a transient network/timeout
error makes exactly 3 attempts and then propagates the exception to the
caller. -/
theorem getJson_transient_three_attempts_raises (script : Nat → FetchResp Meta)
    (h : ∀ i, script i = FetchResp.netErr) :
    getJson script 3 = (Except.error (), 3) := by
  have hs : script = fun _ => FetchResp.netErr := funext h
  rw [hs]
  rfl

/-- Witness for C4: the constant transient-error script. -/
theorem getJson_transient_three_attempts_raises_witness :
    getJson (fun _ => (FetchResp.netErr : FetchResp Meta)) 3 =
      (Except.error (), 3) :=
  getJson_transient_three_attempts_raises (fun _ => FetchResp.netErr)
    (fun _ => rfl)

/-- C5: in every network returned by a crawl, the citing endpoint of every
citation edge is a key of the node mapping, and an identifier that is pruned
by the fetch layer (404, raised error, or publication year past the cutoff)
is never a node key — it can occur only as an edge target. -/
theorem crawl_edge_sources_are_node_keys (api : String → FetchOut)
    (rootDoi : String) (cutoff : Int) (maxD maxN fuel : Nat) (netw : Network)
    (h : crawl api rootDoi cutoff maxD maxN fuel = CrawlResult.net netw) :
    (∀ e ∈ netw.edges, ∃ m, (e.1, m) ∈ netw.nodes) ∧
    (∀ d : String,
      (api d = FetchOut.notFound ∨ api d = FetchOut.err ∨
        (∀ m, api d = FetchOut.ok m → cutoff < m.publicationYear.getD 0)) →
      ∀ m, (d, m) ∉ netw.nodes) := by
  obtain ⟨hn, he⟩ := crawl_net_inv api rootDoi cutoff maxD maxN fuel netw h
  refine ⟨he, ?_⟩
  intro d hpruned m hmem
  obtain ⟨hok, hyear⟩ := hn (d, m) hmem
  rcases hpruned with h404 | herr | hcut
  · rw [hok] at h404; cases h404
  · rw [hok] at herr; cases herr
  · exact absurd hyear (not_le.mpr (hcut m hok))

/-- Witness for C5: in the concrete two-paper crawl, the source `r` of the
edge `(r, s)` is a node key. -/
theorem crawl_edge_sources_are_node_keys_witness :
    ∃ m, ("r", m) ∈ netW.nodes :=
  (crawl_edge_sources_are_node_keys apiW "r" 2010 1 10 10 netW
      (by decide)).1 ("r", "s") (by decide)

/-- C6: every node recorded in a returned network has
`publication_year ≤ cutoff_year` (a missing year is read as 0 by
`meta.get("publication_year", 0)`). -/
theorem crawl_nodes_respect_cutoff (api : String → FetchOut)
    (rootDoi : String) (cutoff : Int) (maxD maxN fuel : Nat) (netw : Network)
    (h : crawl api rootDoi cutoff maxD maxN fuel = CrawlResult.net netw) :
    ∀ d m, (d, m) ∈ netw.nodes → m.publicationYear.getD 0 ≤ cutoff := by
  obtain ⟨hn, -⟩ := crawl_net_inv api rootDoi cutoff maxD maxN fuel netw h
  intro d m hmem
  exact (hn (d, m) hmem).2

/-- Witness for C6: node `s` of the concrete crawl is within the cutoff. -/
theorem crawl_nodes_respect_cutoff_witness :
    metaWs.publicationYear.getD 0 ≤ 2010 :=
  crawl_nodes_respect_cutoff apiW "r" 2010 1 10 10 netW (by decide)
    "s" metaWs (by decide)

/-- C7: a frontier item dequeued at depth ≥ `max_depth` is never expanded:
the step records no outgoing citation edge for it and enqueues none of its
references (the frontier after the step is exactly the remaining frontier). -/
theorem crawlStep_at_max_depth_no_expansion (api : String → FetchOut)
    (cutoff : Int) (maxD : Nat) (st : CrawlState) (doi : String) (depth : Nat)
    (rest : List (String × Nat)) (st' : CrawlState)
    (hd : maxD ≤ depth)
    (h : crawlStep api cutoff maxD st doi depth rest = Except.ok st') :
    st'.edges = st.edges ∧ st'.frontier = rest := by
  unfold crawlStep at h
  by_cases hv : doi ∈ st.visited
  · simp only [hv, if_true, Except.ok.injEq] at h
    subst h
    exact ⟨rfl, rfl⟩
  · simp only [hv, if_false] at h
    cases hapi : api doi with
    | err => rw [hapi] at h; cases h
    | notFound =>
      rw [hapi] at h
      simp only [Except.ok.injEq] at h
      subst h
      exact ⟨rfl, rfl⟩
    | ok meta =>
      rw [hapi] at h
      by_cases hy : cutoff < meta.publicationYear.getD 0
      · simp only [hy, if_true, Except.ok.injEq] at h
        subst h
        exact ⟨rfl, rfl⟩
      · have hdepth : ¬ depth < maxD := not_lt.mpr hd
        simp only [hy, if_false, hdepth, Except.ok.injEq] at h
        subst h
        exact ⟨recordAuthors_edges _ _ _, recordAuthors_frontier _ _ _⟩

/-- Witness for C7: processing `r` dequeued at depth 5 with `max_depth = 3`
records the node but no edges and enqueues nothing. -/
theorem crawlStep_at_max_depth_no_expansion_witness :
    stC7.edges = (initState "r").edges ∧ stC7.frontier = [] :=
  crawlStep_at_max_depth_no_expansion apiW 2010 3 (initState "r") "r" 5 []
    stC7 (by decide) rfl

/-- C8: when the root is not found (404) or temporally pruned, the crawl
still returns a network (it does not raise), and that network's root-meta
field is the empty sentinel. -/
theorem crawl_pruned_root_empty_rootMeta (api : String → FetchOut)
    (rootDoi : String) (cutoff : Int) (maxD maxN fuel : Nat)
    (h : api rootDoi = FetchOut.notFound ∨
      ∃ m, api rootDoi = FetchOut.ok m ∧ cutoff < m.publicationYear.getD 0) :
    ∃ netw,
      crawl api rootDoi cutoff maxD maxN (fuel + 2) = CrawlResult.net netw ∧
      netw.rootMeta = none := by
  by_cases hm : 0 < maxN
  · have hstep : crawlStep api cutoff maxD ⟨[], [], [(rootDoi, 0)], [], [], []⟩
        rootDoi 0 [] = Except.ok ⟨[], [], [], [rootDoi], [], []⟩ := by
      unfold crawlStep
      rcases h with h404 | ⟨m, hok, hcut⟩
      · simp [h404]
      · simp [hok, hcut]
    have hdone : crawl api rootDoi cutoff maxD maxN (fuel + 2) =
        CrawlResult.net (mkNetwork rootDoi ⟨[], [], [], [rootDoi], [], []⟩) := by
      unfold crawl
      rw [show fuel + 2 = (fuel + 1) + 1 from rfl, crawlLoop]
      simp only [initState, List.length_nil, hm, if_true]
      rw [hstep]
      simp only [crawlLoop]
    exact ⟨_, hdone, rfl⟩
  · have hdone : crawl api rootDoi cutoff maxD maxN (fuel + 2) =
        CrawlResult.net (mkNetwork rootDoi (initState rootDoi)) := by
      unfold crawl
      rw [show fuel + 2 = (fuel + 1) + 1 from rfl, crawlLoop]
      simp only [initState, List.length_nil, hm, if_false]
    exact ⟨_, hdone, rfl⟩

/-- Witness for C8: crawling the unknown root `nope` returns a network with
the empty root-meta sentinel. -/
theorem crawl_pruned_root_empty_rootMeta_witness :
    ∃ netw, crawl apiW "nope" 2010 1 10 (0 + 2) = CrawlResult.net netw ∧
      netw.rootMeta = none :=
  crawl_pruned_root_empty_rootMeta apiW "nope" 2010 1 10 0
    (Or.inl (by decide))

/-- C9: `pbi_mean` on the scenario graph (citation counts 10, 20, 30, only
the count-30 author cited) returns `(30 − 20) / std = 10 / √(200/3)`, which
is within 1/1000 of the claimed 1.2247; moreover the policy branches hold:
`None` when fewer than 2 authors carry a citation count, `None` when the
counts' standard deviation is 0, and `0.0` when no author is ever cited. -/
theorem pbiMean_spec :
    pbiMean pbiExample = PbiResult.val 10 (200 / 3) ∧
    |(10 : ℝ) / Real.sqrt (200 / 3) - 1.2247| < 1 / 1000 ∧
    (∀ g : AuthorGraph, (baseScores g).length < 2 →
      pbiMean g = PbiResult.null) ∧
    (∀ g : AuthorGraph, popVar (baseScores g) = 0 →
      pbiMean g = PbiResult.null) ∧
    (∀ g : AuthorGraph, 2 ≤ (baseScores g).length →
      popVar (baseScores g) ≠ 0 → g.edges = [] →
      pbiMean g = PbiResult.zero) := by
  refine ⟨pbi_example_val, sqrt_bound_pbi, ?_, ?_, ?_⟩
  · intro g hlen
    simp [pbiMean, hlen]
  · intro g hvar
    simp [pbiMean, hvar]
  · intro g hlen hvar hedges
    have hcond : ¬ ((baseScores g).length < 2 ∨ popVar (baseScores g) = 0) := by
      push_neg
      exact ⟨hlen, hvar⟩
    simp [pbiMean, hcond, hedges]

/-- Witness for C9: each hypothesis-bearing branch applied at a concrete
author graph. -/
theorem pbiMean_spec_witness :
    pbiMean ⟨[("A", some 5)], []⟩ = PbiResult.null ∧
    pbiMean ⟨[("A", some 7), ("B", some 7)], [("A", "B")]⟩ = PbiResult.null ∧
    pbiMean ⟨[("A", some 1), ("B", some 2)], []⟩ = PbiResult.zero := by
  refine ⟨?_, ?_, ?_⟩
  · exact pbiMean_spec.2.2.1 _ (by decide)
  · apply pbiMean_spec.2.2.2.1
    have hb : baseScores ⟨[("A", some 7), ("B", some 7)], [("A", "B")]⟩ =
        [7, 7] := by
      simp [baseScores]
    rw [hb]
    norm_num [popVar, listMean]
  · apply pbiMean_spec.2.2.2.2 _ (by decide) ?_ rfl
    have hb : baseScores ⟨[("A", some 1), ("B", some 2)], []⟩ = [1, 2] := by
      simp [baseScores]
    rw [hb]
    norm_num [popVar, listMean]

/-- C10: with a nonnegative cutoff, a dequeued unvisited paper whose metadata
lacks the `publication_year` field compares as year 0 and is always recorded
as a node. -/
theorem crawlStep_missing_year_always_recorded (api : String → FetchOut)
    (st : CrawlState) (doi : String) (depth : Nat)
    (rest : List (String × Nat)) (meta : Meta) (cutoff : Int) (maxD : Nat)
    (hv : doi ∉ st.visited) (hapi : api doi = FetchOut.ok meta)
    (hy : meta.publicationYear = none) (hc : 0 ≤ cutoff) :
    ∃ st', crawlStep api cutoff maxD st doi depth rest = Except.ok st' ∧
      (doi, meta) ∈ st'.nodes := by
  have hnocut : ¬ cutoff < meta.publicationYear.getD 0 := by
    rw [hy]
    simpa using hc
  unfold crawlStep
  rw [if_neg hv, hapi]
  simp only [hnocut, if_false]
  by_cases hd : depth < maxD <;>
    · simp only [hd, if_true, if_false]
      refine ⟨_, rfl, ?_⟩
      rw [recordAuthors_nodes]
      simp

/-- Witness for C10: the yearless paper `u` is recorded under cutoff 2010. -/
theorem crawlStep_missing_year_always_recorded_witness :
    ∃ st', crawlStep apiW 2010 1 (initState "u") "u" 0 [] = Except.ok st' ∧
      ("u", metaWu) ∈ st'.nodes :=
  crawlStep_missing_year_always_recorded apiW (initState "u") "u" 0 []
    metaWu 2010 1 (by decide) (by decide) rfl (by decide)
